import Mathlib

/-!
# Verification of pears-go error handling (peake100/pears-go)

Shallow embedding of the repository's error types and operations:

* `pkg/panic.go` — `PanicErr` and `CatchPanic`;
* `pkg/panic.go` (GroupErrors section) — `GroupMatchMode`, `OpError`,
  `GroupErrors` and its `Error`/`Unwrap`/`Is`/`As` methods;
* `pkg/panic.go` (BatchErrors section) — `BatchMatchMode`, `BatchErrors`
  and its methods;
* `pkg/pears/group.go` — the `Group` and `RoutineManager` supervisors.

Go panics are modelled with `Except String`, the `String` carrying the panic
message. Go error values are modelled by the inductive `GoErr`; a leaf error
created by `errors.New` / `fmt.Errorf` (no `%w`) is `GoErr.base id msg`, where
`id` models pointer identity (`==` on two such errors compares the allocation,
not the text). Values recovered from a panic are modelled by `GoValue`: either
an error value, or a non-error value represented by its `fmt` `%v` rendering
(the only operation the repository performs on a non-error recovered value).
-/

set_option linter.unusedVariables false

namespace Pears

/-- `GroupMatchMode` from pkg/panic.go (GroupErrors section). -/
inductive GroupMatchMode where
  | GroupMatchNone
  | GroupMatchAny
  | GroupMatchFirst
deriving DecidableEq, Repr

/-- `BatchMatchMode` from pkg/panic.go (BatchErrors section). -/
inductive BatchMatchMode where
  | BatchMatchNone
  | BatchMatchAny
  | BatchMatchFirst
deriving DecidableEq, Repr

mutual
/-- A Go `interface\x7b\x7d` value recovered from a panic: either an error
value, or a non-error value carried as its `%v` rendering. -/
inductive GoValue where
  | ofErr (e : GoErr)
  | nonErr (repr : String)

/-- Go error values occurring in the repository. -/
inductive GoErr where
  /-- A leaf error from `errors.New`/`fmt.Errorf`; `id` models identity. -/
  | base (id : Nat) (msg : String)
  /-- `OpError` from pkg/panic.go. -/
  | opError (OpName : String) (Err : GoErr)
  /-- `GroupErrors` from pkg/panic.go. -/
  | groupErrors (MatchMode : GroupMatchMode) (Errs : List GoErr)
  /-- `BatchErrors` from pkg/panic.go. -/
  | batchErrors (MatchMode : BatchMatchMode) (Errs : List GoErr)
  /-- `PanicErr` from pkg/panic.go. -/
  | panicErr (Recovered : GoValue) (RecoveredErr : GoErr)
end

/-- A single quote character, used by `OpError.Error`. -/
def sq : String := String.singleton (Char.ofNat 39)

/-- The runtime panic message for indexing an empty slice at 0. -/
def idxPanicMsg : String := "runtime error: index out of range [0] with length 0"

/-- `OpError.Unwrap` (pkg/panic.go): returns the `Err` field. -/
def OpError.Unwrap (OpName : String) (Err : GoErr) : GoErr := Err

/-- `PanicErr.Unwrap` (pkg/panic.go): returns the `RecoveredErr` field. -/
def PanicErr.Unwrap (Recovered : GoValue) (RecoveredErr : GoErr) : GoErr := RecoveredErr

/-- `GroupErrors.Unwrap` (pkg/panic.go): panics when `Errs` is empty, then
returns nil for `GroupMatchNone` and `Errs[0]` for every other mode. `none`
models a nil error. -/
def GroupErrors.Unwrap (MatchMode : GroupMatchMode) (Errs : List GoErr) :
    Except String (Option GoErr) :=
  match Errs with
  | [] => .error "Unwrap() called on pears.GroupErrors value with no inner errors"
  | e :: _ =>
    match MatchMode with
    | .GroupMatchNone => .ok none
    | _ => .ok (some e)

/-- `BatchErrors.Unwrap` (pkg/panic.go): same logic as `GroupErrors.Unwrap`
with the `BatchErrors` panic message. -/
def BatchErrors.Unwrap (MatchMode : BatchMatchMode) (Errs : List GoErr) :
    Except String (Option GoErr) :=
  match Errs with
  | [] => .error "Unwrap() called on pears.BatchErrors value with no inner errors"
  | e :: _ =>
    match MatchMode with
    | .BatchMatchNone => .ok none
    | _ => .ok (some e)

mutual
/-- `fmt` `%v` rendering of an error value, which calls its `Error()` method.
An `Except.error` result models a panic raised while rendering. -/
def errText : GoErr → Except String String
  | .base _ msg => .ok msg
  | .opError n e => OpError.Error n e
  | .groupErrors m errs => GroupErrors.Error m errs
  | .batchErrors m errs => BatchErrors.Error m errs
  | .panicErr r e => PanicErr.Error r e
termination_by e => (sizeOf e, 0)

/-- `OpError.Error` (pkg/panic.go): `error during <quoted name>: <cause>`. -/
def OpError.Error (OpName : String) (Err : GoErr) : Except String String := do
  let inner ← errText Err
  pure ("error during " ++ sq ++ OpName ++ sq ++ ": " ++ inner)
termination_by (sizeOf Err, 1)

/-- `GroupErrors.Error` (pkg/panic.go): renders `len(Errs)` and `Errs[0]`; the
index expression panics on an empty `Errs` slice. -/
def GroupErrors.Error (MatchMode : GroupMatchMode) (Errs : List GoErr) :
    Except String String :=
  match Errs with
  | [] => .error idxPanicMsg
  | e :: rest => do
    let first ← errText e
    pure (toString (rest.length + 1) ++ " errors returned. first: " ++ first)
termination_by (sizeOf Errs, 1)

/-- `BatchErrors.Error` (pkg/panic.go): same rendering as
`GroupErrors.Error`. -/
def BatchErrors.Error (MatchMode : BatchMatchMode) (Errs : List GoErr) :
    Except String String :=
  match Errs with
  | [] => .error idxPanicMsg
  | e :: rest => do
    let first ← errText e
    pure (toString (rest.length + 1) ++ " errors returned. first: " ++ first)
termination_by (sizeOf Errs, 1)

/-- `PanicErr.Error` (pkg/panic.go): `fmt.Sprint` of the fixed prefix and the
`RecoveredErr` field. -/
def PanicErr.Error (Recovered : GoValue) (RecoveredErr : GoErr) :
    Except String String := do
  let inner ← errText RecoveredErr
  pure ("panic recovered: " ++ inner)
termination_by (sizeOf RecoveredErr, 1)
end

/-- Dynamic-type tag of an error value, standing in for Go reflection. -/
def errTag : GoErr → Nat
  | .base _ _ => 0
  | .opError _ _ => 1
  | .groupErrors _ _ => 2
  | .batchErrors _ _ => 3
  | .panicErr _ _ => 4

/-- Whether an error value's dynamic type is a comparable Go type
(`reflect.Type.Comparable`). `GroupErrors`/`BatchErrors` hold a slice field
and are not comparable; the others are. Comparability is a property of the
type: `==` on two comparable-typed values may still panic at run time when an
interface field holds an uncomparable dynamic value (see `interfaceEq`). -/
def typeComparable : GoErr → Bool
  | .groupErrors _ _ => false
  | .batchErrors _ _ => false
  | _ => true

mutual
/-- Go `==` on two error interface values: different dynamic types compare
unequal; identical uncomparable dynamic types panic; otherwise the values are
compared (`goEq`). -/
def interfaceEq (a b : GoErr) : Except String Bool :=
  if errTag a ≠ errTag b then .ok false
  else if typeComparable a = false then
    .error "runtime error: comparing uncomparable type"
  else goEq a b
termination_by (sizeOf a, 1)

/-- Go `==` on two error values of the same comparable dynamic type. `base`
errors are pointers compared by identity (`id`); struct values are compared
field by field in source order, stopping at the first difference. -/
def goEq (a b : GoErr) : Except String Bool :=
  match a, b with
  | .base i _, .base j _ => .ok (i == j)
  | .opError n1 e1, .opError n2 e2 =>
    if n1 ≠ n2 then .ok false else interfaceEq e1 e2
  | .panicErr r1 e1, .panicErr r2 e2 => do
    let b ← goValueEq r1 r2
    if b then interfaceEq e1 e2 else pure false
  | _, _ => .error "runtime error: comparing uncomparable type"
termination_by (sizeOf a, 0)

/-- Go `==` on two recovered `interface` values. -/
def goValueEq (a b : GoValue) : Except String Bool :=
  match a, b with
  | .ofErr x, .ofErr y => interfaceEq x y
  | .nonErr s, .nonErr t => .ok (s == t)
  | _, _ => .ok false
termination_by (sizeOf a, 0)
end

mutual
/-- Go `errors.Is(err, target)` for a non-nil `err` and non-nil `target`:
equality against `target` when `target`'s type is comparable, then the
`Is` method when the dynamic type has one, then recursion into
`Unwrap`. The `Unwrap` step for `GroupErrors`/`BatchErrors` is inlined
from their `Unwrap` methods (panic on empty `Errs`, nil under the
`None` modes, `Errs[0]` otherwise). -/
def errorsIs (err target : GoErr) : Except String Bool := do
  let eq ← if typeComparable target then interfaceEq err target else pure false
  if eq then pure true
  else
    match err with
    | .base _ _ => pure false
    | .opError _ e => errorsIs e target
    | .panicErr _ e => errorsIs e target
    | .groupErrors m errs => do
      let b ← GroupErrors.Is m errs target
      if b then pure true
      else
        match errs with
        | [] => .error "Unwrap() called on pears.GroupErrors value with no inner errors"
        | e :: _ =>
          match m with
          | .GroupMatchNone => pure false
          | _ => errorsIs e target
    | .batchErrors m errs => do
      let b ← BatchErrors.Is m errs target
      if b then pure true
      else
        match errs with
        | [] => .error "Unwrap() called on pears.BatchErrors value with no inner errors"
        | e :: _ =>
          match m with
          | .BatchMatchNone => pure false
          | _ => errorsIs e target
termination_by (sizeOf err, 1)

/-- `GroupErrors.Is` (pkg/panic.go): false under `GroupMatchNone`, any-match
under `GroupMatchAny`, otherwise `errors.Is(Unwrap(), target)` — with
`Unwrap` panicking on empty `Errs` and returning `Errs[0]` under
`GroupMatchFirst`. -/
def GroupErrors.Is (MatchMode : GroupMatchMode) (Errs : List GoErr)
    (target : GoErr) : Except String Bool :=
  match MatchMode with
  | .GroupMatchNone => pure false
  | .GroupMatchAny => GroupErrors.matchAnyIs Errs target
  | .GroupMatchFirst =>
    match Errs with
    | [] => .error "Unwrap() called on pears.GroupErrors value with no inner errors"
    | e :: _ => errorsIs e target
termination_by (sizeOf Errs, 2)

/-- `GroupErrors.matchAnyIs` (pkg/panic.go): `errors.Is` against each element
in order, short-circuiting on the first success. -/
def GroupErrors.matchAnyIs (Errs : List GoErr) (target : GoErr) :
    Except String Bool :=
  match Errs with
  | [] => pure false
  | e :: rest => do
    let b ← errorsIs e target
    if b then pure true else GroupErrors.matchAnyIs rest target
termination_by (sizeOf Errs, 1)

/-- `BatchErrors.Is` (pkg/panic.go): same logic as `GroupErrors.Is`. -/
def BatchErrors.Is (MatchMode : BatchMatchMode) (Errs : List GoErr)
    (target : GoErr) : Except String Bool :=
  match MatchMode with
  | .BatchMatchNone => pure false
  | .BatchMatchAny => BatchErrors.matchAnyIs Errs target
  | .BatchMatchFirst =>
    match Errs with
    | [] => .error "Unwrap() called on pears.BatchErrors value with no inner errors"
    | e :: _ => errorsIs e target
termination_by (sizeOf Errs, 2)

/-- `BatchErrors.matchAnyIs` (pkg/panic.go): same logic as
`GroupErrors.matchAnyIs`. -/
def BatchErrors.matchAnyIs (Errs : List GoErr) (target : GoErr) :
    Except String Bool :=
  match Errs with
  | [] => pure false
  | e :: rest => do
    let b ← errorsIs e target
    if b then pure true else BatchErrors.matchAnyIs rest target
termination_by (sizeOf Errs, 1)
end

/-- The concrete error types a caller can pass (as a pointer) for the target
of `errors.As`. -/
inductive AsTarget where
  | base
  | opError
  | groupErrors
  | batchErrors
  | panicErr
deriving DecidableEq, Repr

/-- Whether an error value's dynamic type is assignable to the `errors.As`
target type. -/
def assignableTo (e : GoErr) (t : AsTarget) : Bool :=
  match e, t with
  | .base _ _, .base => true
  | .opError _ _, .opError => true
  | .groupErrors _ _, .groupErrors => true
  | .batchErrors _ _, .batchErrors => true
  | .panicErr _ _, .panicErr => true
  | _, _ => false

mutual
/-- Go `errors.As(err, target)` for a non-nil `err`: assignability to the
target type first (binding `err` itself), then the `As` method when the
dynamic type has one, then recursion into `Unwrap`; the walk ends when
`Unwrap` yields nil. The result carries the value bound into the target
(`none` for a false return). -/
def errorsAs (err : GoErr) (target : AsTarget) : Except String (Option GoErr) :=
  if assignableTo err target then pure (some err)
  else
    match err with
    | .base _ _ => pure none
    | .opError _ e => errorsAs e target
    | .panicErr _ e => errorsAs e target
    | .groupErrors m errs => do
      let r ← GroupErrors.As m errs target
      match r with
      | some v => pure (some v)
      | none =>
        match errs with
        | [] => .error "Unwrap() called on pears.GroupErrors value with no inner errors"
        | e :: _ =>
          match m with
          | .GroupMatchNone => pure none
          | _ => errorsAs e target
    | .batchErrors m errs => do
      let r ← BatchErrors.As m errs target
      match r with
      | some v => pure (some v)
      | none =>
        match errs with
        | [] => .error "Unwrap() called on pears.BatchErrors value with no inner errors"
        | e :: _ =>
          match m with
          | .BatchMatchNone => pure none
          | _ => errorsAs e target
termination_by (sizeOf err, 1)

/-- `GroupErrors.As` (pkg/panic.go): false under `GroupMatchNone`, any-match
under `GroupMatchAny`, otherwise `errors.As(Unwrap(), target)`. -/
def GroupErrors.As (MatchMode : GroupMatchMode) (Errs : List GoErr)
    (target : AsTarget) : Except String (Option GoErr) :=
  match MatchMode with
  | .GroupMatchNone => pure none
  | .GroupMatchAny => GroupErrors.matchAnyAs Errs target
  | .GroupMatchFirst =>
    match Errs with
    | [] => .error "Unwrap() called on pears.GroupErrors value with no inner errors"
    | e :: _ => errorsAs e target
termination_by (sizeOf Errs, 2)

/-- `GroupErrors.matchAnyAs` (pkg/panic.go): `errors.As` against each element
in order; the first success binds the target. -/
def GroupErrors.matchAnyAs (Errs : List GoErr) (target : AsTarget) :
    Except String (Option GoErr) :=
  match Errs with
  | [] => pure none
  | e :: rest => do
    let r ← errorsAs e target
    match r with
    | some v => pure (some v)
    | none => GroupErrors.matchAnyAs rest target
termination_by (sizeOf Errs, 1)

/-- `BatchErrors.As` (pkg/panic.go): same logic as `GroupErrors.As`. -/
def BatchErrors.As (MatchMode : BatchMatchMode) (Errs : List GoErr)
    (target : AsTarget) : Except String (Option GoErr) :=
  match MatchMode with
  | .BatchMatchNone => pure none
  | .BatchMatchAny => BatchErrors.matchAnyAs Errs target
  | .BatchMatchFirst =>
    match Errs with
    | [] => .error "Unwrap() called on pears.BatchErrors value with no inner errors"
    | e :: _ => errorsAs e target
termination_by (sizeOf Errs, 2)

/-- `BatchErrors.matchAnyAs` (pkg/panic.go): same logic as
`GroupErrors.matchAnyAs`. -/
def BatchErrors.matchAnyAs (Errs : List GoErr) (target : AsTarget) :
    Except String (Option GoErr) :=
  match Errs with
  | [] => pure none
  | e :: rest => do
    let r ← errorsAs e target
    match r with
    | some v => pure (some v)
    | none => BatchErrors.matchAnyAs rest target
termination_by (sizeOf Errs, 1)
end

/-- The observable behaviour of one run of a caller-supplied operation: it
either returns normally (with `none` modelling a nil error) or panics with a
non-nil recovered value. -/
inductive OpOutcome where
  | normal (err : Option GoErr)
  | panics (v : GoValue)

/-- `CatchPanic` (pkg/panic.go): runs `mayPanic` and returns its result; a
panic is recovered and converted into a `PanicErr` whose `RecoveredErr` is the
recovered value itself when it is an error, and otherwise a fresh error built
by `%v`-formatting the recovered value. `freshId` models the identity of the
freshly allocated `fmt.Errorf` error. -/
def CatchPanic (mayPanic : OpOutcome) (freshId : Nat) : Option GoErr :=
  match mayPanic with
  | .normal res => res
  | .panics v =>
    match v with
    | .ofErr e => some (.panicErr v e)
    | .nonErr s => some (.panicErr v (.base freshId s))

/-- Modelled from the spec: the repository's `PanicError` type of the
pkg/pears package is exercised by src/pkg/pears/panic_test.go (which reads its
`StackTrace` field) and by the README demos, but its defining file is not
present under src — src only carries the `PanicErr` variant without a trace.
Spec section 4.1: the guard captures "a diagnostic trace of the call stack at
the point of interception ... as text" and returns a PanicError holding the
recovered value, the recovered cause and that stack trace. -/
structure PanicError where
  Recovered : GoValue
  RecoveredErr : GoErr
  StackTrace : String

/-- Modelled from the spec: the pkg/pears variant of `CatchPanic` returning a
`PanicError` with the captured stack text. The text of the call stack at the
point of interception is an ambient runtime value, passed here as the `stack`
argument; `freshId` models the identity of the fresh stringification error. -/
def CatchPanicSpec (mayPanic : OpOutcome) (stack : String) (freshId : Nat) :
    Sum (Option GoErr) PanicError :=
  match mayPanic with
  | .normal res => .inl res
  | .panics v =>
    .inr
      { Recovered := v
        RecoveredErr :=
          match v with
          | .ofErr e => e
          | .nonErr s => .base freshId s
        StackTrace := stack }

/-- The state of a `Group` (pkg/pears/group.go) visible to its lifecycle and
finalisation logic: the atomic `joined` flag, the settings, and the
arrival-ordered errors gathered by the collector routine. -/
structure Group where
  joined : Bool
  abortOnErr : Bool
  errMode : GroupMatchMode
  collectedErrs : List GoErr

/-- The send step of the goroutine body of `Group.GoNamed`: a completed
operation sends its error wrapped in an `OpError` carrying the operation's
name, and sends nothing on success. -/
def Group.opSend (name : String) (res : Option GoErr) : Option GoErr :=
  match res with
  | none => none
  | some e => some (.opError name e)

/-- The drain loop of `Group.collectErrors`: every error arriving on the
intake channel is appended, in arrival order, to the collected sequence.
`arrivals` is the sequence of operation completions in the order their sends
reach the collector. -/
def Group.collectSends : List (String × Option GoErr) → List GoErr
  | [] => []
  | (name, res) :: rest =>
    match Group.opSend name res with
    | none => Group.collectSends rest
    | some e => e :: Group.collectSends rest

/-- `Group.GoNamed` (pkg/pears/group.go): panics when `Wait` has already been
called; otherwise registers the operation and returns. The launched
operation's later completion is modelled separately by `Group.opSend` /
`Group.collectSends`. -/
def Group.GoNamed (g : Group) (name : String) : Except String Group :=
  if g.joined then .error "Group.Go called after Group.Wait"
  else .ok g

/-- `Group.Go` (pkg/pears/group.go): `GoNamed` under the fixed placeholder
name. -/
def Group.Go (g : Group) : Except String Group :=
  Group.GoNamed g "[ROUTINE]"

/-- `Group.Wait` (pkg/pears/group.go): panics when already joined; otherwise
flips `joined`, waits for collection, and returns nil when nothing was
collected and a `GroupErrors` carrying the configured mode and the collected
errors otherwise. -/
def Group.Wait (g : Group) : Except String (Group × Option GoErr) :=
  if g.joined then .error "Group.Wait called multiple times"
  else
    let g2 : Group := { g with joined := true }
    match g.collectedErrs with
    | [] => .ok (g2, none)
    | _ => .ok (g2, some (.groupErrors g.errMode g.collectedErrs))

/-- The state of a `RoutineManager` (pkg/pears/group.go), the older variant of
`Group`. -/
structure RoutineManager where
  joined : Bool
  abortOnErr : Bool
  errMode : BatchMatchMode
  collectedErrs : List GoErr

/-- The send step of the goroutine body of `RoutineManager.LaunchRoutine`. -/
def RoutineManager.opSend (name : String) (res : Option GoErr) : Option GoErr :=
  match res with
  | none => none
  | some e => some (.opError name e)

/-- The drain loop of `RoutineManager.collectErrors`. -/
def RoutineManager.collectSends : List (String × Option GoErr) → List GoErr
  | [] => []
  | (name, res) :: rest =>
    match RoutineManager.opSend name res with
    | none => RoutineManager.collectSends rest
    | some e => e :: RoutineManager.collectSends rest

/-- `RoutineManager.LaunchRoutine` (pkg/pears/group.go): panics when `Join`
has already been called; otherwise registers the operation and returns. -/
def RoutineManager.LaunchRoutine (rm : RoutineManager) (name : String) :
    Except String RoutineManager :=
  if rm.joined then
    .error "RoutineManager.LaunchRoutine called after RoutineManager.Join"
  else .ok rm

/-- `RoutineManager.Join` (pkg/pears/group.go): panics when already joined;
otherwise flips `joined` and returns nil or a `BatchErrors`. -/
def RoutineManager.Join (rm : RoutineManager) :
    Except String (RoutineManager × Option GoErr) :=
  if rm.joined then .error "RoutineManager.Join called multiple times"
  else
    let rm2 : RoutineManager := { rm with joined := true }
    match rm.collectedErrs with
    | [] => .ok (rm2, none)
    | _ => .ok (rm2, some (.batchErrors rm.errMode rm.collectedErrs))

/-- The mode correspondence between the two implementation variants. -/
def modeCorr : GroupMatchMode → BatchMatchMode
  | .GroupMatchNone => .BatchMatchNone
  | .GroupMatchAny => .BatchMatchAny
  | .GroupMatchFirst => .BatchMatchFirst

/-- Two possibly-panicking computations agree when they return equal values,
or both fault. -/
def exceptAgree {α : Type} (a b : Except String α) : Prop :=
  match a, b with
  | .ok x, .ok y => x = y
  | .error _, .error _ => True
  | _, _ => False

/- ### Theorems -/

/-- C6: for every `AggregateError` value whose causes sequence is empty,
invoking `Unwrap` directly faults fatally (panics), for every `matchMode` —
in both the `GroupErrors` and `BatchErrors` variants the length check
precedes the mode switch, so the panic fires regardless of the mode. -/
theorem unwrap_empty_aggregate_panics (m : GroupMatchMode) (mb : BatchMatchMode) :
    GroupErrors.Unwrap m [] =
      .error "Unwrap() called on pears.GroupErrors value with no inner errors" ∧
    BatchErrors.Unwrap mb [] =
      .error "Unwrap() called on pears.BatchErrors value with no inner errors" :=
  ⟨rfl, rfl⟩

/-- C10: for every `AggregateError` value whose causes sequence is empty, the
display-text operation `Error()` also faults fatally: it indexes `Errs[0]`
with no emptiness guard, so rendering an empty aggregate panics with the
index-out-of-range runtime error instead of returning a string, for every
`matchMode` and in both variants. -/
theorem error_empty_aggregate_panics (m : GroupMatchMode) (mb : BatchMatchMode) :
    GroupErrors.Error m [] = .error idxPanicMsg ∧
    BatchErrors.Error mb [] = .error idxPanicMsg := by
  constructor <;> simp [GroupErrors.Error, BatchErrors.Error]

/-- C2: for every `AggregateError` with `matchMode` FIRST and non-empty
causes, `Unwrap` returns `causes[0]`, the `Is` method returns exactly
`errors.Is` applied to `causes[0]` (which walks transitively through the
cause chain of `causes[0]`), and the `As` method returns exactly `errors.As`
applied to `causes[0]` — in both variants. -/
theorem first_mode_delegates_to_head (e : GoErr) (rest : List GoErr)
    (target : GoErr) (t : AsTarget) :
    GroupErrors.Unwrap .GroupMatchFirst (e :: rest) = .ok (some e) ∧
    GroupErrors.Is .GroupMatchFirst (e :: rest) target = errorsIs e target ∧
    GroupErrors.As .GroupMatchFirst (e :: rest) t = errorsAs e t ∧
    BatchErrors.Unwrap .BatchMatchFirst (e :: rest) = .ok (some e) ∧
    BatchErrors.Is .BatchMatchFirst (e :: rest) target = errorsIs e target ∧
    BatchErrors.As .BatchMatchFirst (e :: rest) t = errorsAs e t := by
  refine ⟨rfl, ?_, ?_, rfl, ?_, ?_⟩ <;>
    simp [GroupErrors.Is, GroupErrors.As, BatchErrors.Is, BatchErrors.As]

/-- C4 counterexample: on a `GroupErrors` with `matchMode` NONE and a single
`OpError` cause, `errors.As` with an `OpError`-shaped target fails — the
claim states it should succeed for the `OpError` shape, but the `As` method
returns false under NONE and the walk then stops because `Unwrap` yields nil,
so the `OpError` shape is never reached. -/
theorem none_mode_as_opError_counterexample :
    errorsAs (.groupErrors .GroupMatchNone [.opError "op" (.base 0 "boom")])
        .opError = .ok none ∧
    ¬ ∃ v, errorsAs (.groupErrors .GroupMatchNone [.opError "op" (.base 0 "boom")])
        .opError = .ok (some v) := by
  constructor
  · simp [errorsAs, GroupErrors.As, assignableTo, Bind.bind, Except.bind,
      Pure.pure, Except.pure]
  · intro ⟨v, hv⟩
    simp [errorsAs, GroupErrors.As, assignableTo, Bind.bind, Except.bind,
      Pure.pure, Except.pure] at hv

/-- C4 amended: for every `AggregateError` with `matchMode` NONE and
non-empty causes, `Is(target)` is false for every target (both as the `Is`
method and as a full `errors.Is` query on the aggregate), `errors.As`
succeeds if and only if the target shape is the aggregate's own type
(`GroupErrors`) — never `OpError`, and never descending into the causes —
and `Unwrap` yields the nil error. -/
theorem none_mode_semantics (e0 : GoErr) (rest : List GoErr)
    (target : GoErr) (t : AsTarget) :
    GroupErrors.Is .GroupMatchNone (e0 :: rest) target = .ok false ∧
    errorsIs (.groupErrors .GroupMatchNone (e0 :: rest)) target = .ok false ∧
    GroupErrors.Unwrap .GroupMatchNone (e0 :: rest) = .ok none ∧
    GroupErrors.As .GroupMatchNone (e0 :: rest) t = .ok none ∧
    errorsAs (.groupErrors .GroupMatchNone (e0 :: rest)) t =
      .ok (if t = .groupErrors
           then some (.groupErrors .GroupMatchNone (e0 :: rest))
           else none) := by
  refine ⟨?_, ?_, rfl, ?_, ?_⟩
  · simp [GroupErrors.Is, Pure.pure, Except.pure]
  · cases target <;>
      simp [errorsIs, GroupErrors.Is, interfaceEq, typeComparable, errTag,
        Bind.bind, Except.bind, Pure.pure, Except.pure]
  · simp [GroupErrors.As, Pure.pure, Except.pure]
  · cases t <;>
      simp [errorsAs, GroupErrors.As, assignableTo, Bind.bind, Except.bind,
        Pure.pure, Except.pure]

/-- C1: for every supervised group that has not yet been finalized, finalize
(`Group.Wait` / `RoutineManager.Join`) returns no error when the collected
causes sequence is empty, and otherwise returns exactly one aggregate
(`GroupErrors` / `BatchErrors`) whose match mode is the group's configured
mode and whose causes are the collected errors; the collector gathers, in
arrival order, exactly one `OpError` wrapping each failed operation's name
and error, and nothing for successful operations. -/
theorem finalize_returns_collected_aggregate (g : Group) (rm : RoutineManager)
    (arrivals : List (String × Option GoErr))
    (hg : g.joined = false) (hrm : rm.joined = false) :
    (g.collectedErrs = [] → g.Wait = .ok ({ g with joined := true }, none)) ∧
    (g.collectedErrs ≠ [] →
      g.Wait = .ok ({ g with joined := true },
        some (.groupErrors g.errMode g.collectedErrs))) ∧
    (rm.collectedErrs = [] → rm.Join = .ok ({ rm with joined := true }, none)) ∧
    (rm.collectedErrs ≠ [] →
      rm.Join = .ok ({ rm with joined := true },
        some (.batchErrors rm.errMode rm.collectedErrs))) ∧
    Group.collectSends arrivals =
      arrivals.filterMap (fun p => Option.map (GoErr.opError p.1) p.2) ∧
    RoutineManager.collectSends arrivals =
      arrivals.filterMap (fun p => Option.map (GoErr.opError p.1) p.2) := by
  refine ⟨?_, ?_, ?_, ?_, ?_, ?_⟩
  · intro h; simp [Group.Wait, hg, h]
  · intro h; cases hc : g.collectedErrs with
    | nil => exact absurd hc h
    | cons e es => simp [Group.Wait, hg, hc]
  · intro h; simp [RoutineManager.Join, hrm, h]
  · intro h; cases hc : rm.collectedErrs with
    | nil => exact absurd hc h
    | cons e es => simp [RoutineManager.Join, hrm, hc]
  · induction arrivals with
    | nil => rfl
    | cons p rest ih =>
      cases hp : p.2 <;>
        simp [Group.collectSends, Group.opSend, ih, hp]
  · induction arrivals with
    | nil => rfl
    | cons p rest ih =>
      cases hp : p.2 <;>
        simp [RoutineManager.collectSends, RoutineManager.opSend, ih, hp]

/-- C1 witness: the theorem applied to a concrete open group, manager and
arrival sequence. -/
theorem finalize_returns_collected_aggregate_witness :
    (Group.collectedErrs
        { joined := false, abortOnErr := true, errMode := .GroupMatchFirst,
          collectedErrs := [.opError "X" (.base 1 "boom")] } = [] →
      Group.Wait
        { joined := false, abortOnErr := true, errMode := .GroupMatchFirst,
          collectedErrs := [.opError "X" (.base 1 "boom")] } =
        .ok ({ joined := true, abortOnErr := true, errMode := .GroupMatchFirst,
               collectedErrs := [.opError "X" (.base 1 "boom")] }, none)) ∧
    (Group.collectedErrs
        { joined := false, abortOnErr := true, errMode := .GroupMatchFirst,
          collectedErrs := [.opError "X" (.base 1 "boom")] } ≠ [] →
      Group.Wait
        { joined := false, abortOnErr := true, errMode := .GroupMatchFirst,
          collectedErrs := [.opError "X" (.base 1 "boom")] } =
        .ok ({ joined := true, abortOnErr := true, errMode := .GroupMatchFirst,
               collectedErrs := [.opError "X" (.base 1 "boom")] },
          some (.groupErrors .GroupMatchFirst [.opError "X" (.base 1 "boom")]))) ∧
    (RoutineManager.collectedErrs
        { joined := false, abortOnErr := true, errMode := .BatchMatchAny,
          collectedErrs := [] } = [] →
      RoutineManager.Join
        { joined := false, abortOnErr := true, errMode := .BatchMatchAny,
          collectedErrs := [] } =
        .ok ({ joined := true, abortOnErr := true, errMode := .BatchMatchAny,
               collectedErrs := [] }, none)) ∧
    (RoutineManager.collectedErrs
        { joined := false, abortOnErr := true, errMode := .BatchMatchAny,
          collectedErrs := [] } ≠ [] →
      RoutineManager.Join
        { joined := false, abortOnErr := true, errMode := .BatchMatchAny,
          collectedErrs := [] } =
        .ok ({ joined := true, abortOnErr := true, errMode := .BatchMatchAny,
               collectedErrs := [] },
          some (.batchErrors .BatchMatchAny []))) ∧
    Group.collectSends [("X", some (.base 1 "boom")), ("Y", none)] =
      List.filterMap (fun p => Option.map (GoErr.opError p.1) p.2)
        [("X", some (.base 1 "boom")), ("Y", none)] ∧
    RoutineManager.collectSends [("X", some (.base 1 "boom")), ("Y", none)] =
      List.filterMap (fun p => Option.map (GoErr.opError p.1) p.2)
        [("X", some (.base 1 "boom")), ("Y", none)] :=
  finalize_returns_collected_aggregate
    { joined := false, abortOnErr := true, errMode := .GroupMatchFirst,
      collectedErrs := [.opError "X" (.base 1 "boom")] }
    { joined := false, abortOnErr := true, errMode := .BatchMatchAny,
      collectedErrs := [] }
    [("X", some (.base 1 "boom")), ("Y", none)] rfl rfl

/-- C5: launching (`Go`/`GoNamed`/`LaunchRoutine`) before finalize does not
fault; finalizing a second time (`Wait`/`Join`) faults fatally instead of
returning; and launching after finalize faults fatally — in both variants. -/
theorem one_shot_lifecycle (g g2 : Group) (r : Option GoErr)
    (rm rm2 : RoutineManager) (r2 : Option GoErr) (name : String)
    (hg : g.joined = false) (hw : g.Wait = .ok (g2, r))
    (hrm : rm.joined = false) (hj : rm.Join = .ok (rm2, r2)) :
    g.GoNamed name = .ok g ∧
    g.Go = .ok g ∧
    g2.Wait = .error "Group.Wait called multiple times" ∧
    g2.GoNamed name = .error "Group.Go called after Group.Wait" ∧
    rm.LaunchRoutine name = .ok rm ∧
    rm2.Join = .error "RoutineManager.Join called multiple times" ∧
    rm2.LaunchRoutine name =
      .error "RoutineManager.LaunchRoutine called after RoutineManager.Join" := by
  have hg2 : g2.joined = true := by
    cases hc : g.collectedErrs <;> simp [Group.Wait, hg, hc] at hw <;>
      simp [← hw.1]
  have hrm2 : rm2.joined = true := by
    cases hc : rm.collectedErrs <;> simp [RoutineManager.Join, hrm, hc] at hj <;>
      simp [← hj.1]
  refine ⟨?_, ?_, ?_, ?_, ?_, ?_, ?_⟩
  · simp [Group.GoNamed, hg]
  · simp [Group.Go, Group.GoNamed, hg]
  · simp [Group.Wait, hg2]
  · simp [Group.GoNamed, hg2]
  · simp [RoutineManager.LaunchRoutine, hrm]
  · simp [RoutineManager.Join, hrm2]
  · simp [RoutineManager.LaunchRoutine, hrm2]

/-- C5 witness: the theorem applied to a concrete group and manager, with the
states produced by the first finalize call. -/
theorem one_shot_lifecycle_witness :
    Group.GoNamed
      { joined := false, abortOnErr := true, errMode := .GroupMatchFirst,
        collectedErrs := [] } "op" =
      .ok { joined := false, abortOnErr := true, errMode := .GroupMatchFirst,
            collectedErrs := [] } ∧
    Group.Go
      { joined := false, abortOnErr := true, errMode := .GroupMatchFirst,
        collectedErrs := [] } =
      .ok { joined := false, abortOnErr := true, errMode := .GroupMatchFirst,
            collectedErrs := [] } ∧
    Group.Wait
      { joined := true, abortOnErr := true, errMode := .GroupMatchFirst,
        collectedErrs := [] } = .error "Group.Wait called multiple times" ∧
    Group.GoNamed
      { joined := true, abortOnErr := true, errMode := .GroupMatchFirst,
        collectedErrs := [] } "op" =
      .error "Group.Go called after Group.Wait" ∧
    RoutineManager.LaunchRoutine
      { joined := false, abortOnErr := true, errMode := .BatchMatchFirst,
        collectedErrs := [] } "op" =
      .ok { joined := false, abortOnErr := true, errMode := .BatchMatchFirst,
            collectedErrs := [] } ∧
    RoutineManager.Join
      { joined := true, abortOnErr := true, errMode := .BatchMatchFirst,
        collectedErrs := [] } = .error "RoutineManager.Join called multiple times" ∧
    RoutineManager.LaunchRoutine
      { joined := true, abortOnErr := true, errMode := .BatchMatchFirst,
        collectedErrs := [] } "op" =
      .error "RoutineManager.LaunchRoutine called after RoutineManager.Join" :=
  one_shot_lifecycle
    { joined := false, abortOnErr := true, errMode := .GroupMatchFirst,
      collectedErrs := [] }
    { joined := true, abortOnErr := true, errMode := .GroupMatchFirst,
      collectedErrs := [] } none
    { joined := false, abortOnErr := true, errMode := .BatchMatchFirst,
      collectedErrs := [] }
    { joined := true, abortOnErr := true, errMode := .BatchMatchFirst,
      collectedErrs := [] } none
    "op" rfl rfl rfl rfl

/-- C7: an operation completing normally passes its result (success or error)
through `CatchPanic` unchanged; a panic with recovered value V yields a
`PanicErr` whose recovered cause is V itself when V is error-shaped and
otherwise a fresh error whose text is the `%v` stringification of V; the
`PanicErr`'s `Unwrap` returns that recovered cause, so an `errors.Is` query
on the `PanicErr` reaches V's cause chain when V was error-shaped (stated
here for any non-`PanicErr`-shaped target matched inside that chain). -/
theorem catchPanic_semantics (res : Option GoErr) (e : GoErr) (s : String)
    (fid : Nat) (v : GoValue) (target : GoErr)
    (ht : errTag target ≠ 4) (hr : errorsIs e target = .ok true) :
    CatchPanic (.normal res) fid = res ∧
    CatchPanic (.panics (.ofErr e)) fid = some (.panicErr (.ofErr e) e) ∧
    CatchPanic (.panics (.nonErr s)) fid =
      some (.panicErr (.nonErr s) (.base fid s)) ∧
    PanicErr.Unwrap v e = e ∧
    errorsIs (.panicErr v e) target = .ok true := by
  refine ⟨rfl, rfl, rfl, rfl, ?_⟩
  have heq : interfaceEq (.panicErr v e) target = .ok false := by
    cases target <;> simp_all [interfaceEq, errTag]
  cases htc : typeComparable target <;>
    simp [errorsIs, htc, heq, hr, Bind.bind, Except.bind, Pure.pure, Except.pure]

/-- C7 witness: the theorem applied at a concrete error-shaped panic value. -/
theorem catchPanic_semantics_witness :
    CatchPanic (.normal (some (.base 3 "io"))) 9 = some (.base 3 "io") ∧
    CatchPanic (.panics (.ofErr (.base 1 "EOF"))) 9 =
      some (.panicErr (.ofErr (.base 1 "EOF")) (.base 1 "EOF")) ∧
    CatchPanic (.panics (.nonErr "2")) 9 =
      some (.panicErr (.nonErr "2") (.base 9 "2")) ∧
    PanicErr.Unwrap (.ofErr (.base 1 "EOF")) (.base 1 "EOF") = .base 1 "EOF" ∧
    errorsIs (.panicErr (.ofErr (.base 1 "EOF")) (.base 1 "EOF"))
      (.base 1 "EOF") = .ok true :=
  catchPanic_semantics (some (.base 3 "io")) (.base 1 "EOF") "2" 9
    (.ofErr (.base 1 "EOF")) (.base 1 "EOF")
    (by simp [errTag])
    (by simp [errorsIs, interfaceEq, typeComparable, errTag, goEq,
      Bind.bind, Except.bind, Pure.pure, Except.pure])

/-- C8 (spec-modelled): for every operation that panics under the pkg/pears
variant of `CatchPanic`, the returned `PanicError` carries, in addition to the
recovered value and the recovered cause, the diagnostic stack-trace text
captured at the point of interception. -/
theorem catchPanicSpec_carries_stack_trace (v : GoValue) (stack : String)
    (fid : Nat) (res : Option GoErr) :
    CatchPanicSpec (.normal res) stack fid = .inl res ∧
    ∃ pe : PanicError,
      CatchPanicSpec (.panics v) stack fid = .inr pe ∧
      pe.Recovered = v ∧
      pe.StackTrace = stack ∧
      pe.RecoveredErr =
        (match v with | .ofErr e => e | .nonErr s => .base fid s) :=
  ⟨rfl, ⟨_, rfl, rfl, rfl, rfl⟩⟩

/-- `matchAnyIs` succeeds exactly when some element matches, provided no
element's `errors.Is` query panics. -/
theorem matchAnyIs_spec (errs : List GoErr) (target : GoErr)
    (h : ∀ e ∈ errs,
      errorsIs e target = .ok true ∨ errorsIs e target = .ok false) :
    (GroupErrors.matchAnyIs errs target = .ok true ↔
      ∃ e ∈ errs, errorsIs e target = .ok true) := by
  induction errs with
  | nil => simp [GroupErrors.matchAnyIs, Pure.pure, Except.pure]
  | cons e rest ih =>
    have he := h e (List.mem_cons_self e rest)
    have hrest := ih fun x hx => h x (List.mem_cons_of_mem e hx)
    rcases he with he | he
    · simp only [GroupErrors.matchAnyIs, he, Bind.bind, Except.bind]
      constructor
      · intro _; exact ⟨e, List.mem_cons_self e rest, he⟩
      · intro _; rfl
    · simp only [GroupErrors.matchAnyIs, he, Bind.bind, Except.bind,
        Bool.false_eq_true, if_false]
      rw [hrest]
      constructor
      · rintro ⟨x, hx, hxt⟩; exact ⟨x, List.mem_cons_of_mem e hx, hxt⟩
      · rintro ⟨x, hx, hxt⟩
        rcases List.mem_cons.mp hx with rfl | hx
        · rw [he] at hxt; exact absurd hxt (by simp)
        · exact ⟨x, hx, hxt⟩

/-- `matchAnyAs` binds the first element on which `errors.As` succeeds,
provided no element's query panics. -/
theorem matchAnyAs_spec (errs : List GoErr) (t : AsTarget)
    (h : ∀ e ∈ errs, ∃ o, errorsAs e t = .ok o) (v : GoErr) :
    (GroupErrors.matchAnyAs errs t = .ok (some v) ↔
      ∃ pre mid post, errs = pre ++ mid :: post ∧
        errorsAs mid t = .ok (some v) ∧
        ∀ e ∈ pre, errorsAs e t = .ok none) := by
  induction errs with
  | nil =>
    constructor
    · intro hcontra
      simp [GroupErrors.matchAnyAs, Pure.pure, Except.pure] at hcontra
    · rintro ⟨pre, mid, post, habs, -, -⟩
      exact absurd habs.symm (List.append_ne_nil_of_right_ne_nil pre
        (List.cons_ne_nil mid post))
  | cons e rest ih =>
    obtain ⟨o, ho⟩ := h e (List.mem_cons_self e rest)
    have hrest := ih fun x hx => h x (List.mem_cons_of_mem e hx)
    cases o with
    | some w =>
      simp only [GroupErrors.matchAnyAs, ho, Bind.bind, Except.bind]
      constructor
      · intro hw
        refine ⟨[], e, rest, rfl, ?_, by intro x hx; cases hx⟩
        rw [ho]; exact hw
      · rintro ⟨pre, mid, post, hdec, hmid, hpre⟩
        cases pre with
        | nil =>
          obtain ⟨rfl, -⟩ := List.cons.injEq .. ▸ And.intro
            (List.head_eq_of_cons_eq hdec) (List.tail_eq_of_cons_eq hdec)
          rw [ho] at hmid
          exact hmid
        | cons q pre2 =>
          have hq : q = e := (List.head_eq_of_cons_eq hdec.symm)
          have : errorsAs e t = .ok none := hq ▸ hpre q (List.mem_cons_self q pre2)
          rw [ho] at this
          exact absurd this (by simp)
    | none =>
      simp only [GroupErrors.matchAnyAs, ho, Bind.bind, Except.bind]
      rw [hrest]
      constructor
      · rintro ⟨pre, mid, post, hdec, hmid, hpre⟩
        refine ⟨e :: pre, mid, post, by rw [hdec]; rfl, hmid, ?_⟩
        intro x hx
        rcases List.mem_cons.mp hx with rfl | hx
        · exact ho
        · exact hpre x hx
      · rintro ⟨pre, mid, post, hdec, hmid, hpre⟩
        cases pre with
        | nil =>
          have hme : mid = e := List.head_eq_of_cons_eq hdec.symm
          rw [hme, ho] at hmid
          exact absurd hmid (by simp)
        | cons q pre2 =>
          have hqe : q = e := List.head_eq_of_cons_eq hdec.symm
          have htail : rest = pre2 ++ mid :: post :=
            List.tail_eq_of_cons_eq hdec
          exact ⟨pre2, mid, post, htail, hmid,
            fun x hx => hpre x (List.mem_cons_of_mem q hx)⟩

/-- C3: for every `AggregateError` with `matchMode` ANY, `Is(target)` holds
iff `errors.Is` holds on at least one element of the causes, `As(target)`
holds iff `errors.As` holds on at least one element with the first matching
element binding the target, and `Unwrap` still returns `causes[0]` — stated
under the assumption that no individual cause query panics. -/
theorem any_mode_semantics (errs : List GoErr) (e0 : GoErr) (rest : List GoErr)
    (target : GoErr) (t : AsTarget)
    (hIs : ∀ e ∈ errs,
      errorsIs e target = .ok true ∨ errorsIs e target = .ok false)
    (hAs : ∀ e ∈ errs, ∃ o, errorsAs e t = .ok o) :
    (GroupErrors.Is .GroupMatchAny errs target = .ok true ↔
      ∃ e ∈ errs, errorsIs e target = .ok true) ∧
    (∀ v, GroupErrors.As .GroupMatchAny errs t = .ok (some v) ↔
      ∃ pre mid post, errs = pre ++ mid :: post ∧
        errorsAs mid t = .ok (some v) ∧
        ∀ e ∈ pre, errorsAs e t = .ok none) ∧
    GroupErrors.Unwrap .GroupMatchAny (e0 :: rest) = .ok (some e0) := by
  refine ⟨?_, ?_, rfl⟩
  · have hs := matchAnyIs_spec errs target hIs
    rw [show GroupErrors.Is .GroupMatchAny errs target =
      GroupErrors.matchAnyIs errs target by simp [GroupErrors.Is]]
    exact hs
  · intro v
    have hs := matchAnyAs_spec errs t hAs v
    rw [show GroupErrors.As .GroupMatchAny errs t =
      GroupErrors.matchAnyAs errs t by simp [GroupErrors.As]]
    exact hs

/-- C3 witness: the theorem applied to a two-element causes list where only
the second element matches the target. -/
theorem any_mode_semantics_witness :
    (GroupErrors.Is .GroupMatchAny [.base 0 "a", .base 1 "b"] (.base 1 "b") =
        .ok true ↔
      ∃ e ∈ [GoErr.base 0 "a", .base 1 "b"],
        errorsIs e (.base 1 "b") = .ok true) ∧
    (∀ v, GroupErrors.As .GroupMatchAny [.base 0 "a", .base 1 "b"] .base =
        .ok (some v) ↔
      ∃ pre mid post,
        [GoErr.base 0 "a", .base 1 "b"] = pre ++ mid :: post ∧
        errorsAs mid .base = .ok (some v) ∧
        ∀ e ∈ pre, errorsAs e .base = .ok none) ∧
    GroupErrors.Unwrap .GroupMatchAny (GoErr.base 0 "a" :: [.base 1 "b"]) =
      .ok (some (.base 0 "a")) :=
  any_mode_semantics [.base 0 "a", .base 1 "b"] (.base 0 "a") [.base 1 "b"]
    (.base 1 "b") .base
    (by
      simp [List.forall_mem_cons, errorsIs, interfaceEq, typeComparable,
        errTag, goEq, Bind.bind, Except.bind, Pure.pure, Except.pure])
    (by
      simp [List.forall_mem_cons, errorsAs, assignableTo, Bind.bind,
        Except.bind, Pure.pure, Except.pure])

/-- `exceptAgree` is reflexive. -/
theorem exceptAgree_refl {α : Type} (a : Except String α) : exceptAgree a a := by
  cases a <;> simp [exceptAgree]

/-- The two any-match `Is` loops are the same function. -/
theorem matchAnyIs_variants_eq (errs : List GoErr) (target : GoErr) :
    GroupErrors.matchAnyIs errs target = BatchErrors.matchAnyIs errs target := by
  induction errs with
  | nil => simp [GroupErrors.matchAnyIs, BatchErrors.matchAnyIs]
  | cons e rest ih =>
    simp [GroupErrors.matchAnyIs, BatchErrors.matchAnyIs, ih]

/-- The two any-match `As` loops are the same function. -/
theorem matchAnyAs_variants_eq (errs : List GoErr) (t : AsTarget) :
    GroupErrors.matchAnyAs errs t = BatchErrors.matchAnyAs errs t := by
  induction errs with
  | nil => simp [GroupErrors.matchAnyAs, BatchErrors.matchAnyAs]
  | cons e rest ih =>
    simp [GroupErrors.matchAnyAs, BatchErrors.matchAnyAs, ih]

/-- C9: the two implementation variants have identical semantics. For every
mode, causes list, target and state: the `Error` renderings are equal, the
`Unwrap`/`Is`/`As` operations agree (equal results, or both faulting — the
fault messages name the respective type), the launch operations
(`GoNamed`/`LaunchRoutine`) succeed and fault together, the finalize
operations (`Wait`/`Join`) return corresponding results (nil together, or a
`GroupErrors` and a `BatchErrors` carrying the corresponding mode and the
same causes) and fault together, and the collectors gather identical
sequences. -/
theorem variants_equivalent (m : GroupMatchMode) (errs : List GoErr)
    (target : GoErr) (t : AsTarget) (name : String)
    (g : Group) (rm : RoutineManager)
    (arrivals : List (String × Option GoErr))
    (hj : rm.joined = g.joined) (hm : rm.errMode = modeCorr g.errMode)
    (hc : rm.collectedErrs = g.collectedErrs) :
    GroupErrors.Error m errs = BatchErrors.Error (modeCorr m) errs ∧
    exceptAgree (GroupErrors.Unwrap m errs)
      (BatchErrors.Unwrap (modeCorr m) errs) ∧
    exceptAgree (GroupErrors.Is m errs target)
      (BatchErrors.Is (modeCorr m) errs target) ∧
    exceptAgree (GroupErrors.As m errs t)
      (BatchErrors.As (modeCorr m) errs t) ∧
    (g.joined = false →
      g.GoNamed name = .ok g ∧ rm.LaunchRoutine name = .ok rm) ∧
    (g.joined = true →
      (∃ s, g.GoNamed name = .error s) ∧
      ∃ s, rm.LaunchRoutine name = .error s) ∧
    (g.joined = false → g.collectedErrs = [] →
      g.Wait = .ok ({ g with joined := true }, none) ∧
      rm.Join = .ok ({ rm with joined := true }, none)) ∧
    (g.joined = false → g.collectedErrs ≠ [] →
      g.Wait = .ok ({ g with joined := true },
        some (.groupErrors g.errMode g.collectedErrs)) ∧
      rm.Join = .ok ({ rm with joined := true },
        some (.batchErrors (modeCorr g.errMode) g.collectedErrs))) ∧
    (g.joined = true →
      (∃ s, g.Wait = .error s) ∧ ∃ s, rm.Join = .error s) ∧
    Group.collectSends arrivals = RoutineManager.collectSends arrivals := by
  refine ⟨?_, ?_, ?_, ?_, ?_, ?_, ?_, ?_, ?_, ?_⟩
  · cases errs <;> simp [GroupErrors.Error, BatchErrors.Error]
  · cases errs with
    | nil => simp [GroupErrors.Unwrap, BatchErrors.Unwrap, exceptAgree]
    | cons e es =>
      cases m <;>
        simp [GroupErrors.Unwrap, BatchErrors.Unwrap, modeCorr, exceptAgree]
  · cases m with
    | GroupMatchNone =>
      simp [GroupErrors.Is, BatchErrors.Is, modeCorr, exceptAgree,
        Pure.pure, Except.pure]
    | GroupMatchAny =>
      have h := matchAnyIs_variants_eq errs target
      simp only [GroupErrors.Is, BatchErrors.Is, modeCorr]
      rw [h]
      exact exceptAgree_refl _
    | GroupMatchFirst =>
      cases errs with
      | nil => simp [GroupErrors.Is, BatchErrors.Is, modeCorr, exceptAgree]
      | cons e es =>
        simp only [GroupErrors.Is, BatchErrors.Is, modeCorr]
        exact exceptAgree_refl _
  · cases m with
    | GroupMatchNone =>
      simp [GroupErrors.As, BatchErrors.As, modeCorr, exceptAgree,
        Pure.pure, Except.pure]
    | GroupMatchAny =>
      have h := matchAnyAs_variants_eq errs t
      simp only [GroupErrors.As, BatchErrors.As, modeCorr]
      rw [h]
      exact exceptAgree_refl _
    | GroupMatchFirst =>
      cases errs with
      | nil => simp [GroupErrors.As, BatchErrors.As, modeCorr, exceptAgree]
      | cons e es =>
        simp only [GroupErrors.As, BatchErrors.As, modeCorr]
        exact exceptAgree_refl _
  · intro h
    constructor
    · simp [Group.GoNamed, h]
    · simp [RoutineManager.LaunchRoutine, hj, h]
  · intro h
    constructor
    · exact ⟨"Group.Go called after Group.Wait", by simp [Group.GoNamed, h]⟩
    · exact ⟨"RoutineManager.LaunchRoutine called after RoutineManager.Join",
        by simp [RoutineManager.LaunchRoutine, hj, h]⟩
  · intro h hempty
    constructor
    · simp [Group.Wait, h, hempty]
    · simp [RoutineManager.Join, hj, h, hc, hempty]
  · intro h hne
    cases hce : g.collectedErrs with
    | nil => exact absurd hce hne
    | cons e es =>
      constructor
      · simp [Group.Wait, h, hce]
      · simp [RoutineManager.Join, hj, h, hc, hce, hm]
  · intro h
    constructor
    · exact ⟨"Group.Wait called multiple times", by simp [Group.Wait, h]⟩
    · exact ⟨"RoutineManager.Join called multiple times",
        by simp [RoutineManager.Join, hj, h]⟩
  · induction arrivals with
    | nil => rfl
    | cons p rest ih =>
      simp [Group.collectSends, RoutineManager.collectSends,
        Group.opSend, RoutineManager.opSend, ih]

/-- C9 witness: the render-equality and unwrap-agreement conjuncts of the
theorem applied to corresponding concrete states. -/
theorem variants_equivalent_witness :
    GroupErrors.Error .GroupMatchAny [.base 0 "x"] =
      BatchErrors.Error (modeCorr .GroupMatchAny) [.base 0 "x"] ∧
    exceptAgree (GroupErrors.Unwrap .GroupMatchAny [.base 0 "x"])
      (BatchErrors.Unwrap (modeCorr .GroupMatchAny) [.base 0 "x"]) :=
  And.intro
    (variants_equivalent .GroupMatchAny [.base 0 "x"] (.base 0 "x") .base "op"
      { joined := false, abortOnErr := true, errMode := .GroupMatchNone,
        collectedErrs := [] }
      { joined := false, abortOnErr := true, errMode := .BatchMatchNone,
        collectedErrs := [] }
      [] rfl rfl rfl).1
    (variants_equivalent .GroupMatchAny [.base 0 "x"] (.base 0 "x") .base "op"
      { joined := false, abortOnErr := true, errMode := .GroupMatchNone,
        collectedErrs := [] }
      { joined := false, abortOnErr := true, errMode := .BatchMatchNone,
        collectedErrs := [] }
      [] rfl rfl rfl).2.1

end Pears
